import Mathlib

/-!
Verification of the neural style transfer notebook `Style_Transfer.ipynb`.

The notebook optimizes a target image so that its VGG-19 feature activations
match a content image at content layers and a style image's Gram matrices at
style layers.  Scalars are modelled by `ℚ` (exact arithmetic standing in for
the runtime's floating-point reals), tensors by dimension fields together
with a total entry function, and the pretrained network by an abstract list
of named modules: the pretrained weights live outside this repository, so
each module is an opaque tensor transformation.  Image file I/O, plotting
and the download/upload glue are out of scope, as the specification states.
-/

namespace StyleTransfer

open Finset

/-- A 4-dimensional tensor (batch, channels, height, width) with rational
entries; entries at indices outside the declared dimensions are irrelevant
to every computation below. -/
structure Tensor4 where
  b : ℕ
  c : ℕ
  h : ℕ
  w : ℕ
  data : ℕ → ℕ → ℕ → ℕ → ℚ

/-- A square matrix as produced by `gram_matrix`: its dimension `d` and a
total entry function. -/
structure GramM where
  d : ℕ
  data : ℕ → ℕ → ℚ

/-- Embedding of `gram_matrix`: for a `(1, d, h, w)` tensor, reshape to
`(d, h * w)` (row-major, so flat column `k` addresses height `k / w` and
width `k % w`) and multiply the reshaped matrix by its own transpose. -/
def gram_matrix (t : Tensor4) : GramM :=
  { d := t.c
  , data := fun i j =>
      ∑ k in Finset.range (t.h * t.w),
        t.data 0 i (k / t.w) (k % t.w) * t.data 0 j (k / t.w) (k % t.w) }

/-- Summing a function of the div/mod decomposition of `k < m * n` is the
same as the double sum over the height and width ranges. -/
lemma sum_range_mul_divmod (g : ℕ → ℕ → ℚ) (m n : ℕ) :
    ∑ k in Finset.range (m * n), g (k / n) (k % n)
      = ∑ a in Finset.range m, ∑ bb in Finset.range n, g a bb := by
  rcases Nat.eq_zero_or_pos n with hn | hn
  · subst hn; simp
  · induction m with
    | zero => simp
    | succ p ih =>
      rw [Nat.succ_mul, Finset.sum_range_add, ih, Finset.sum_range_succ]
      congr 1
      refine Finset.sum_congr rfl ?_
      intro x hx
      have hxn : x < n := Finset.mem_range.mp hx
      have h1 : (p * n + x) / n = p := by
        rw [Nat.mul_comm p n, Nat.mul_add_div hn, Nat.div_eq_of_lt hxn, Nat.add_zero]
      have h2 : (p * n + x) % n = x := by
        rw [Nat.mul_comm p n, Nat.mul_add_mod, Nat.mod_eq_of_lt hxn]
      rw [h1, h2]

/-- C2: for an input tensor of shape `(1, d, h, w)`, `gram_matrix` returns the
`d × d` matrix whose `(i, j)` entry is the inner product of the flattened
feature map of channel `i` with the flattened feature map of channel `j`. -/
theorem gram_matrix_inner_products (t : Tensor4) (_hb : t.b = 1) (i j : ℕ) :
    (gram_matrix t).d = t.c ∧
    (gram_matrix t).data i j
      = ∑ a in Finset.range t.h, ∑ bb in Finset.range t.w,
          t.data 0 i a bb * t.data 0 j a bb :=
  ⟨rfl, sum_range_mul_divmod (fun a bb => t.data 0 i a bb * t.data 0 j a bb) t.h t.w⟩

/-- A small concrete tensor of shape (1, 2, 1, 2) for evaluating witnesses. -/
def gramW : Tensor4 :=
  ⟨1, 2, 1, 2, fun _ i a bb => (i : ℚ) + a + bb⟩

/-- Witness for C2 at the concrete tensor `gramW` and entry (0, 1). -/
theorem gram_matrix_inner_products_witness :
    gramW.b = 1 ∧
    ((gram_matrix gramW).d = gramW.c ∧
      (gram_matrix gramW).data 0 1
        = ∑ a in Finset.range gramW.h, ∑ bb in Finset.range gramW.w,
            gramW.data 0 0 a bb * gramW.data 0 1 a bb) :=
  ⟨rfl, gram_matrix_inner_products gramW rfl 0 1⟩

/-- The default `layers` dictionary of `get_features`, mapping VGG-19 module
names to the paper's layer names. -/
def defaultLayers : List (String × String) :=
  [("0", "conv1_1"), ("5", "conv2_1"), ("10", "conv3_1"), ("19", "conv4_1"),
   ("12", "conv3_2"), ("21", "conv4_2"), ("28", "conv5_1")]

/-- One module of the feature network, as an abstract tensor transformation:
the pretrained layers come from torchvision, outside this repository. -/
abbrev LayerFn := Tensor4 → Tensor4

/-- The feature network `vgg.features`: the ordered list of named modules,
mirroring the iteration order of the model's module dictionary. -/
abbrev Model := List (String × LayerFn)

/-- Embedding of `get_features`: run the image through the modules in order
and record the intermediate output under the mapped name whenever the module
name occurs in `layers`. -/
def get_features (image : Tensor4) (model : Model) (layers : List (String × String)) :
    List (String × Tensor4) :=
  (model.foldl
    (fun (acc : Tensor4 × List (String × Tensor4)) nl =>
      let x := nl.2 acc.1
      match layers.lookup nl.1 with
      | some lname => (x, acc.2 ++ [(lname, x)])
      | none => (x, acc.2))
    (image, [])).2

/-- The empty tensor used as lookup default; every key the loss computations
access is present whenever the model contains the corresponding modules. -/
def zeroT : Tensor4 := ⟨0, 0, 0, 0, fun _ _ _ _ => 0⟩

/-- Dictionary access `features[layer]` on the features association list. -/
def dget (fs : List (String × Tensor4)) (l : String) : Tensor4 :=
  ((fs.lookup l).getD zeroT)

/-- The empty Gram matrix used as lookup default. -/
def zeroG : GramM := ⟨0, fun _ _ => 0⟩

/-- Dictionary access `style_gms[layer]` on the Gram association list. -/
def gget (gs : List (String × GramM)) (l : String) : GramM :=
  ((gs.lookup l).getD zeroG)

/-- Embedding of `torch.mean((x - y) ** 2)`: elementwise squared difference
averaged over the shape of `x`. -/
def mseT (x y : Tensor4) : ℚ :=
  (∑ bi in Finset.range x.b, ∑ ci in Finset.range x.c, ∑ i in Finset.range x.h,
      ∑ j in Finset.range x.w, (x.data bi ci i j - y.data bi ci i j) ^ 2)
    / ((x.b : ℚ) * x.c * x.h * x.w)

/-- Embedding of `torch.mean((g1 - g2) ** 2)` over the `d × d` Gram entries. -/
def gramMSE (g1 g2 : GramM) : ℚ :=
  (∑ i in Finset.range g1.d, ∑ j in Finset.range g1.d,
      (g1.data i j - g2.data i j) ^ 2)
    / ((g1.d : ℚ) * g1.d)

/-- The `content_layers_weights` dictionary of `stylize`:
`conv3_2 ↦ content_weight_blend` and `conv4_2 ↦ 1 - content_weight_blend`,
in insertion order. -/
def content_layers_weights (blend : ℚ) : List (String × ℚ) :=
  [("conv3_2", blend), ("conv4_2", 1 - blend)]

/-- The content-loss accumulation of the loop body: starting from 0, add
`weight * torch.mean((target_features[layer] - content_features[layer]) ** 2)`
for each entry of `content_layers_weights`. -/
def content_loss (blend : ℚ) (tf cf : List (String × Tensor4)) : ℚ :=
  (content_layers_weights blend).foldl
    (fun acc lw => acc + lw.2 * mseT (dget tf lw.1) (dget cf lw.1)) 0

/-- The `style_layers` list of `stylize`. -/
def style_layers : List String :=
  ["conv1_1", "conv2_1", "conv3_1", "conv4_1", "conv5_1"]

/-- The `style_layers_weights` dictionary: the running `layer_weight` starts
at 1 and is multiplied by `style_layer_weight_exp` after each layer. -/
def style_layers_weights (e : ℚ) : List (String × ℚ) :=
  ((style_layers.foldl
      (fun (acc : ℚ × List (String × ℚ)) l => (acc.1 * e, acc.2 ++ [(l, acc.1)]))
      (1, [])).2)

/-- The style-loss accumulation of the loop body: for each style layer, take
the layer weight times the mean squared difference between the target Gram
matrix and the precomputed style Gram matrix, divide by `d * h * w` of the
target feature map, and add the results. -/
def style_loss (slw : List (String × ℚ)) (tf : List (String × Tensor4))
    (sgms : List (String × GramM)) : ℚ :=
  slw.foldl
    (fun acc lw =>
      let tfl := dget tf lw.1
      acc + lw.2 * gramMSE (gram_matrix tfl) (gget sgms lw.1)
              / ((tfl.c : ℚ) * tfl.h * tfl.w)) 0

/-- The total-variation denoising term of the loop body: `h_tv` sums the
absolute differences of vertically adjacent pixels, `w_tv` those of
horizontally adjacent pixels, and the loss is
`2 * (h_tv / count_h + w_tv / count_w) / batch_size`. -/
def tv_loss (t : Tensor4) : ℚ :=
  let count_h : ℚ := ((t.h : ℚ) - 1) * t.w
  let count_w : ℚ := (t.h : ℚ) * ((t.w : ℚ) - 1)
  let h_tv : ℚ := ∑ bi in Finset.range t.b, ∑ ci in Finset.range t.c,
      ∑ i in Finset.range (t.h - 1), ∑ j in Finset.range t.w,
        |t.data bi ci (i + 1) j - t.data bi ci i j|
  let w_tv : ℚ := ∑ bi in Finset.range t.b, ∑ ci in Finset.range t.c,
      ∑ i in Finset.range t.h, ∑ j in Finset.range (t.w - 1),
        |t.data bi ci i (j + 1) - t.data bi ci i j|
  2 * (h_tv / count_h + w_tv / count_w) / (t.b : ℚ)

/-- The keyword arguments of `stylize` that govern its control flow and loss
weighting.  `0.2`, `0.01`, `0.03` and the like are represented exactly. -/
structure StylizeArgs where
  target_init : String
  out_format : String
  lr : ℚ
  steps : ℕ
  style_layer_weight_exp : ℚ
  content_weight_blend : ℚ
  content_weight : ℚ
  style_weight : ℚ
  tv_weight : ℚ

/-- Embedding of the target-definition block of `stylize`: clone the content
tensor, fill a tensor of the content's shape with 0.5, draw a tensor of the
content's shape from the randomness source, or raise `ValueError`. -/
def initTarget (args : StylizeArgs) (content : Tensor4)
    (rng : ℕ → ℕ → ℕ → ℕ → ℚ) : Except String Tensor4 :=
  if args.target_init = "clone" then .ok content
  else if args.target_init = "blank" then
    .ok { content with data := fun _ _ _ _ => 1 / 2 }
  else if args.target_init = "random" then .ok { content with data := rng }
  else .error ("Unexpected Initialization Method" ++ args.target_init)

/-- The per-iteration weight triple (content, style, tv): blank and random
runs override the caller's weights with a two-phase schedule keyed on
`ii <= steps * 0.2`, while clone runs keep the caller's weights. -/
def weightsAt (args : StylizeArgs) (ii : ℕ) : ℚ × ℚ × ℚ :=
  if args.target_init = "blank" ∨ args.target_init = "random" then
    if (ii : ℚ) ≤ (args.steps : ℚ) * (2 / 10) then (1, 1 / 100, 2)
    else (10, 100, 20)
  else (args.content_weight, args.style_weight, args.tv_weight)

/-- The ambient data of one `stylize` call: the frozen feature network, the
loaded content and style tensors (image decoding is out of scope), the
randomness source behind `torch.rand`, the Adam update oracle (iteration
index, total loss, current target ↦ updated target, standing for
`zero_grad`/`backward`/`step`), and the keyword arguments. -/
structure Ctx where
  model : Model
  content : Tensor4
  style : Tensor4
  rng : ℕ → ℕ → ℕ → ℕ → ℚ
  upd : ℕ → ℚ → Tensor4 → Tensor4
  args : StylizeArgs

/-- `content_features = get_features(content, vgg)`, computed before the loop. -/
def contentFeats (ctx : Ctx) : List (String × Tensor4) :=
  get_features ctx.content ctx.model defaultLayers

/-- `style_gms`: the Gram matrix of every extracted style feature map,
computed before the loop. -/
def styleGms (ctx : Ctx) : List (String × GramM) :=
  (get_features ctx.style ctx.model defaultLayers).map (fun p => (p.1, gram_matrix p.2))

/-- The initial target of a run whose initialization method is valid. -/
def initT (ctx : Ctx) : Tensor4 :=
  (initTarget ctx.args ctx.content ctx.rng).toOption.getD zeroT

/-- The three scalar losses computed in one loop iteration on target `t`:
content loss, style loss, and total-variation loss, with the target features
extracted through the given model. -/
def lossesOf (ctx : Ctx) (model : Model) (t : Tensor4) : ℚ × ℚ × ℚ :=
  let tf := get_features t model defaultLayers
  (content_loss ctx.args.content_weight_blend tf (contentFeats ctx),
   style_loss (style_layers_weights ctx.args.style_layer_weight_exp) tf (styleGms ctx),
   tv_loss t)

/-- `total_loss` from the three scalar losses and the iteration's weights. -/
def totalOf (args : StylizeArgs) (ii : ℕ) (ls : ℚ × ℚ × ℚ) : ℚ :=
  (weightsAt args ii).1 * ls.1 + (weightsAt args ii).2.1 * ls.2.1
    + (weightsAt args ii).2.2 * ls.2.2

/-- The target tensor after the first `k` iterations of the loop. -/
def targetAt (ctx : Ctx) : ℕ → Tensor4
  | 0 => initT ctx
  | k + 1 =>
    let t := targetAt ctx k
    ctx.upd (k + 1) (totalOf ctx.args (k + 1) (lossesOf ctx ctx.model t)) t

/-- The target features extracted at the start of iteration `ii` (1-based). -/
def targetFeatsAt (ctx : Ctx) (ii : ℕ) : List (String × Tensor4) :=
  get_features (targetAt ctx (ii - 1)) ctx.model defaultLayers

/-- The content loss computed in iteration `ii` (1-based). -/
def contentLossAt (ctx : Ctx) (ii : ℕ) : ℚ :=
  (lossesOf ctx ctx.model (targetAt ctx (ii - 1))).1

/-- The style loss computed in iteration `ii` (1-based). -/
def styleLossAt (ctx : Ctx) (ii : ℕ) : ℚ :=
  (lossesOf ctx ctx.model (targetAt ctx (ii - 1))).2.1

/-- The total-variation loss computed in iteration `ii` (1-based). -/
def tvLossAt (ctx : Ctx) (ii : ℕ) : ℚ :=
  (lossesOf ctx ctx.model (targetAt ctx (ii - 1))).2.2

/-- The total loss optimized in iteration `ii` (1-based). -/
def totalLossAt (ctx : Ctx) (ii : ℕ) : ℚ :=
  totalOf ctx.args ii (lossesOf ctx ctx.model (targetAt ctx (ii - 1)))

/-- Observable steps of one `stylize` run; the loss-computation event records
the three scalar losses and the total loss of its iteration. -/
inductive Event where
  | forwardPass : Event
  | lossComputation (contentL styleL tvL totalL : ℚ) : Event
  | optimizerStep : Event
  | exportImage : Event
deriving DecidableEq

/-- Recognizes the forward-pass event. -/
def Event.isForward : Event → Bool
  | .forwardPass => true
  | _ => false

/-- Recognizes the loss-computation event. -/
def Event.isLossComp : Event → Bool
  | .lossComputation _ _ _ _ => true
  | _ => false

/-- Recognizes the optimizer-step event. -/
def Event.isOptStep : Event → Bool
  | .optimizerStep => true
  | _ => false

/-- Recognizes the image-export event. -/
def Event.isExport : Event → Bool
  | .exportImage => true
  | _ => false

/-- The events emitted by iteration `ii` of the loop. -/
def iterEvents (ctx : Ctx) (ii : ℕ) : List Event :=
  [Event.forwardPass,
   Event.lossComputation (contentLossAt ctx ii) (styleLossAt ctx ii)
     (tvLossAt ctx ii) (totalLossAt ctx ii),
   Event.optimizerStep]

/-- State and trace after iterations `1 .. k` of the loop: the current
target, the feature network (threaded through the state to record that no
iteration modifies it), and the emitted events. -/
def loopAux (ctx : Ctx) : ℕ → (Tensor4 × Model) × List Event
  | 0 => ((initT ctx, ctx.model), [])
  | k + 1 =>
    let p := loopAux ctx k
    let ls := lossesOf ctx p.1.2 p.1.1
    let tot := totalOf ctx.args (k + 1) ls
    ((ctx.upd (k + 1) tot p.1.1, p.1.2),
     p.2 ++ [Event.forwardPass, Event.lossComputation ls.1 ls.2.1 ls.2.2 tot,
             Event.optimizerStep])

/-- Embedding of `stylize`: define the target (raising `ValueError` for an
unknown method before any iteration), run the fixed-count optimization loop,
then export once; an unknown `out_format` raises `ValueError` only at the
export stage, after the loop.  The final un-normalization and file encoding
of the export are out of scope, so the result carries the final target. -/
def stylize (ctx : Ctx) : List Event × Except String Tensor4 :=
  match initTarget ctx.args ctx.content ctx.rng with
  | .error e => ([], .error e)
  | .ok _ =>
    let p := loopAux ctx ctx.args.steps
    if ctx.args.out_format = "image-only" then (p.2 ++ [Event.exportImage], .ok p.1.1)
    else if ctx.args.out_format = "comparison" then (p.2 ++ [Event.exportImage], .ok p.1.1)
    else (p.2, .error ("Unexpected Output Format" ++ ctx.args.out_format))

/-- A reference to an optimizable tensor: the target image, or one of the
network's parameters (which the optimizer is never given). -/
inductive PRef where
  | target : PRef
  | vggParam (i : ℕ) : PRef
deriving DecidableEq

/-- The Adam optimizer as configured: its parameter list and learning rate. -/
structure Adam where
  params : List PRef
  lr : ℚ

/-- Embedding of `optim.Adam([target], lr = lr)` in `stylize`, including the
preceding learning-rate adjustment `lr if clone else min(lr * 10, 0.2)`. -/
def mkStylizeOptimizer (args : StylizeArgs) : Adam :=
  { params := [PRef.target]
  , lr := if args.target_init = "clone" then args.lr
          else min (args.lr * 10) (2 / 10) }

/-- One parameter tensor of the pretrained network, with its autograd flag. -/
structure VggParam where
  value : ℕ → ℚ
  requiresGrad : Bool

/-- Embedding of the freezing cell:
`for param in vgg.parameters(): param.requires_grad_(False)`. -/
def freezeParams (ps : List VggParam) : List VggParam :=
  ps.map (fun p => { p with requiresGrad := false })

/-- The loop state after `k` iterations: the target follows `targetAt` and
the network component never changes. -/
lemma loopAux_state (ctx : Ctx) (k : ℕ) :
    (loopAux ctx k).1.1 = targetAt ctx k ∧ (loopAux ctx k).1.2 = ctx.model := by
  induction k with
  | zero => exact ⟨rfl, rfl⟩
  | succ n ih =>
    refine ⟨?_, ?_⟩
    · show ctx.upd (n + 1)
        (totalOf ctx.args (n + 1) (lossesOf ctx (loopAux ctx n).1.2 (loopAux ctx n).1.1))
        (loopAux ctx n).1.1 = _
      rw [ih.1, ih.2]
      rfl
    · exact ih.2

/-- The trace after `k` iterations is the concatenation of the per-iteration
event blocks for iterations `1 .. k`. -/
lemma loopAux_trace (ctx : Ctx) (k : ℕ) :
    (loopAux ctx k).2 = (List.range' 1 k).flatMap (iterEvents ctx) := by
  induction k with
  | zero => rfl
  | succ n ih =>
    have hb : (loopAux ctx (n + 1)).2
        = (loopAux ctx n).2
          ++ [Event.forwardPass,
              Event.lossComputation
                (lossesOf ctx (loopAux ctx n).1.2 (loopAux ctx n).1.1).1
                (lossesOf ctx (loopAux ctx n).1.2 (loopAux ctx n).1.1).2.1
                (lossesOf ctx (loopAux ctx n).1.2 (loopAux ctx n).1.1).2.2
                (totalOf ctx.args (n + 1)
                  (lossesOf ctx (loopAux ctx n).1.2 (loopAux ctx n).1.1)),
              Event.optimizerStep] := rfl
    rw [hb, ih, (loopAux_state ctx n).1, (loopAux_state ctx n).2,
      List.range'_concat, List.flatMap_append]
    congr 1
    have : (1 + 1 * n) = n + 1 := by omega
    rw [this]
    show _ = iterEvents ctx (n + 1) ++ []
    rw [List.append_nil]
    simp only [iterEvents, contentLossAt, styleLossAt, tvLossAt, totalLossAt,
      Nat.add_sub_cancel]

/-- Counting events over the concatenated iteration blocks when every block
contributes the same count. -/
lemma countP_flatMap_const {α : Type} (l : List α) (f : α → List Event)
    (p : Event → Bool) (c : ℕ) (hc : ∀ x ∈ l, (f x).countP p = c) :
    (l.flatMap f).countP p = c * l.length := by
  induction l with
  | nil => simp
  | cons a t ih =>
    rw [List.flatMap_cons, List.countP_append, hc a (by simp),
      ih (fun x hx => hc x (List.mem_cons_of_mem a hx)), List.length_cons]
    ring

/-- Every iteration block contains exactly one forward pass, one loss
computation and one optimizer step, and no export. -/
lemma iterEvents_counts (ctx : Ctx) (ii : ℕ) :
    (iterEvents ctx ii).countP Event.isForward = 1
    ∧ (iterEvents ctx ii).countP Event.isLossComp = 1
    ∧ (iterEvents ctx ii).countP Event.isOptStep = 1
    ∧ (iterEvents ctx ii).countP Event.isExport = 0 := by
  refine ⟨?_, ?_, ?_, ?_⟩ <;>
    simp [iterEvents, List.countP_cons, Event.isForward, Event.isLossComp,
      Event.isOptStep, Event.isExport]

/-- A valid initialization method makes `initTarget` succeed. -/
lemma initTarget_isOk (args : StylizeArgs) (content : Tensor4)
    (rng : ℕ → ℕ → ℕ → ℕ → ℚ)
    (hi : args.target_init = "clone" ∨ args.target_init = "blank"
      ∨ args.target_init = "random") :
    ∃ t, initTarget args content rng = .ok t := by
  rcases hi with h | h | h <;> simp [initTarget, h]

/-- With a valid initialization method, `stylize` reduces to the loop
followed by the export stage. -/
lemma stylize_of_valid (ctx : Ctx)
    (hi : ctx.args.target_init = "clone" ∨ ctx.args.target_init = "blank"
      ∨ ctx.args.target_init = "random") :
    stylize ctx =
      (let p := loopAux ctx ctx.args.steps
       if ctx.args.out_format = "image-only" then
         (p.2 ++ [Event.exportImage], .ok p.1.1)
       else if ctx.args.out_format = "comparison" then
         (p.2 ++ [Event.exportImage], .ok p.1.1)
       else (p.2, .error ("Unexpected Output Format" ++ ctx.args.out_format))) := by
  obtain ⟨t, ht⟩ := initTarget_isOk ctx.args ctx.content ctx.rng hi
  unfold stylize
  rw [ht]

/-- C1 (amended): the content loss of every iteration is the blend-weighted
sum over the two content layers:
`content_weight_blend * MSE(conv3_2) + (1 - content_weight_blend) * MSE(conv4_2)`. -/
theorem content_loss_two_layer_blend (ctx : Ctx) (ii : ℕ) :
    contentLossAt ctx ii
      = ctx.args.content_weight_blend
          * mseT (dget (targetFeatsAt ctx ii) "conv3_2")
                 (dget (contentFeats ctx) "conv3_2")
        + (1 - ctx.args.content_weight_blend)
          * mseT (dget (targetFeatsAt ctx ii) "conv4_2")
                 (dget (contentFeats ctx) "conv4_2") := by
  simp [contentLossAt, lossesOf, content_loss, content_layers_weights,
    targetFeatsAt, List.foldl]

/-- A concrete 1×1×1×1 tensor with constant entry `q`. -/
def constT (q : ℚ) : Tensor4 := ⟨1, 1, 1, 1, fun _ _ _ _ => q⟩

/-- A concrete two-module network: module "12" (mapped to conv3_2) is the
identity and module "21" (mapped to conv4_2) doubles every entry. -/
def cexModel : Model :=
  [("12", fun t => t),
   ("21", fun t => { t with data := fun a bb cc dd => 2 * t.data a bb cc dd })]

/-- Concrete `stylize` arguments with `content_weight_blend = 1/2`. -/
def cexArgs : StylizeArgs :=
  { target_init := "blank", out_format := "image-only", lr := 3 / 100, steps := 1,
    style_layer_weight_exp := 1, content_weight_blend := 1 / 2,
    content_weight := 15 / 2, style_weight := 100, tv_weight := 200 }

/-- A concrete `stylize` call on which the content loss is evaluated. -/
def cexCtx : Ctx :=
  { model := cexModel, content := constT 0, style := constT 0,
    rng := fun _ _ _ _ => 0, upd := fun _ _ t => t, args := cexArgs }

/-- C1 (counterexample): in iteration 1 of the run `cexCtx` (blend 1/2), the
content loss equals 5/8, which is not the mean squared error between the
target and content feature maps at any single one of the seven extracted
layers, so the content loss is not an MSE at one chosen layer. -/
theorem content_loss_not_single_layer_mse :
    contentLossAt cexCtx 1
        ≠ mseT (dget (targetFeatsAt cexCtx 1) "conv1_1")
               (dget (contentFeats cexCtx) "conv1_1")
    ∧ contentLossAt cexCtx 1
        ≠ mseT (dget (targetFeatsAt cexCtx 1) "conv2_1")
               (dget (contentFeats cexCtx) "conv2_1")
    ∧ contentLossAt cexCtx 1
        ≠ mseT (dget (targetFeatsAt cexCtx 1) "conv3_1")
               (dget (contentFeats cexCtx) "conv3_1")
    ∧ contentLossAt cexCtx 1
        ≠ mseT (dget (targetFeatsAt cexCtx 1) "conv3_2")
               (dget (contentFeats cexCtx) "conv3_2")
    ∧ contentLossAt cexCtx 1
        ≠ mseT (dget (targetFeatsAt cexCtx 1) "conv4_1")
               (dget (contentFeats cexCtx) "conv4_1")
    ∧ contentLossAt cexCtx 1
        ≠ mseT (dget (targetFeatsAt cexCtx 1) "conv4_2")
               (dget (contentFeats cexCtx) "conv4_2")
    ∧ contentLossAt cexCtx 1
        ≠ mseT (dget (targetFeatsAt cexCtx 1) "conv5_1")
               (dget (contentFeats cexCtx) "conv5_1") := by
  refine ⟨?_, ?_, ?_, ?_, ?_, ?_, ?_⟩ <;>
    · simp [contentLossAt, targetFeatsAt, contentFeats, lossesOf, content_loss,
        content_layers_weights, mseT, dget, get_features, defaultLayers, cexCtx, cexArgs,
        cexModel, constT, targetAt, initT, initTarget, zeroT, List.lookup, List.foldl,
        Except.toOption, Option.getD, Finset.sum_range_succ, Finset.sum_range_zero]
      norm_num

/-- The per-layer style term as the specification phrases it: the layer's
weight times the mean squared Gram difference of that layer, divided by the
layer's `d * h * w` normalization. -/
def styleTermAt (ctx : Ctx) (ii : ℕ) (l : String) (wgt : ℚ) : ℚ :=
  wgt * gramMSE (gram_matrix (dget (targetFeatsAt ctx ii) l)) (gget (styleGms ctx) l)
    / (((dget (targetFeatsAt ctx ii) l).c : ℚ)
        * (dget (targetFeatsAt ctx ii) l).h * (dget (targetFeatsAt ctx ii) l).w)

/-- C3: the style loss of every iteration is the sum, over the five style
layers conv1_1, conv2_1, conv3_1, conv4_1, conv5_1, of the layer's weight
(the powers of style_layer_weight_exp) times the mean squared error between
the target and style Gram matrices, divided by the layer's normalization. -/
theorem style_loss_five_layers (ctx : Ctx) (ii : ℕ) :
    styleLossAt ctx ii
      = styleTermAt ctx ii "conv1_1" 1
        + styleTermAt ctx ii "conv2_1" ctx.args.style_layer_weight_exp
        + styleTermAt ctx ii "conv3_1" (ctx.args.style_layer_weight_exp ^ 2)
        + styleTermAt ctx ii "conv4_1" (ctx.args.style_layer_weight_exp ^ 3)
        + styleTermAt ctx ii "conv5_1" (ctx.args.style_layer_weight_exp ^ 4) := by
  simp only [styleLossAt, lossesOf, style_loss, style_layers_weights, style_layers,
    styleTermAt, targetFeatsAt, List.foldl]
  ring

/-- Closed form of `tv_loss`, with each absolute difference written from the
pixel to its lower or right neighbor. -/
lemma tv_loss_closed_form (t : Tensor4) :
    tv_loss t
      = 2 * ((∑ bi in Finset.range t.b, ∑ ci in Finset.range t.c,
                ∑ i in Finset.range (t.h - 1), ∑ j in Finset.range t.w,
                  |t.data bi ci i j - t.data bi ci (i + 1) j|)
              / (((t.h : ℚ) - 1) * t.w)
            + (∑ bi in Finset.range t.b, ∑ ci in Finset.range t.c,
                ∑ i in Finset.range t.h, ∑ j in Finset.range (t.w - 1),
                  |t.data bi ci i j - t.data bi ci i (j + 1)|)
              / ((t.h : ℚ) * ((t.w : ℚ) - 1))) / (t.b : ℚ) := by
  have h1 : ∀ bi ci i j, |t.data bi ci (i + 1) j - t.data bi ci i j|
      = |t.data bi ci i j - t.data bi ci (i + 1) j| :=
    fun _ _ _ _ => abs_sub_comm _ _
  have h2 : ∀ bi ci i j, |t.data bi ci i (j + 1) - t.data bi ci i j|
      = |t.data bi ci i j - t.data bi ci i (j + 1)| :=
    fun _ _ _ _ => abs_sub_comm _ _
  unfold tv_loss
  simp only [h1, h2]

/-- C4: the total-variation loss of every iteration equals
`2 * (H / ((h - 1) * w) + W / (h * (w - 1))) / b` on the current target,
where `H` sums the absolute differences of vertically adjacent pixels and
`W` those of horizontally adjacent pixels. -/
theorem tv_loss_formula (ctx : Ctx) (ii : ℕ) :
    tvLossAt ctx ii
      = 2 * ((∑ bi in Finset.range (targetAt ctx (ii - 1)).b,
                ∑ ci in Finset.range (targetAt ctx (ii - 1)).c,
                  ∑ i in Finset.range ((targetAt ctx (ii - 1)).h - 1),
                    ∑ j in Finset.range (targetAt ctx (ii - 1)).w,
                      |(targetAt ctx (ii - 1)).data bi ci i j
                        - (targetAt ctx (ii - 1)).data bi ci (i + 1) j|)
              / ((((targetAt ctx (ii - 1)).h : ℚ) - 1) * (targetAt ctx (ii - 1)).w)
            + (∑ bi in Finset.range (targetAt ctx (ii - 1)).b,
                ∑ ci in Finset.range (targetAt ctx (ii - 1)).c,
                  ∑ i in Finset.range (targetAt ctx (ii - 1)).h,
                    ∑ j in Finset.range ((targetAt ctx (ii - 1)).w - 1),
                      |(targetAt ctx (ii - 1)).data bi ci i j
                        - (targetAt ctx (ii - 1)).data bi ci i (j + 1)|)
              / (((targetAt ctx (ii - 1)).h : ℚ)
                  * (((targetAt ctx (ii - 1)).w : ℚ) - 1)))
          / ((targetAt ctx (ii - 1)).b : ℚ) :=
  tv_loss_closed_form (targetAt ctx (ii - 1))

/-- Filtering the concatenated iteration blocks for loss-computation events
yields exactly one event per iteration, carrying that iteration's losses. -/
lemma filter_flatMap_lossComp (ctx : Ctx) (l : List ℕ) :
    ((l.flatMap (iterEvents ctx)).filter Event.isLossComp)
      = l.map (fun ii => Event.lossComputation (contentLossAt ctx ii)
          (styleLossAt ctx ii) (tvLossAt ctx ii) (totalLossAt ctx ii)) := by
  induction l with
  | nil => rfl
  | cons a t ih =>
    rw [List.flatMap_cons, List.filter_append, ih]
    simp [iterEvents, List.filter, Event.isLossComp]

/-- C5: in every iteration exactly the three scalar losses are computed (the
trace of a completed run carries one loss-computation event per iteration,
holding the content, style and total-variation losses), and the total loss
optimized is the weighted sum of the three with that iteration's weights. -/
theorem total_loss_weighted_sum (ctx : Ctx)
    (hi : ctx.args.target_init = "clone" ∨ ctx.args.target_init = "blank"
      ∨ ctx.args.target_init = "random")
    (ho : ctx.args.out_format = "image-only" ∨ ctx.args.out_format = "comparison") :
    (∀ ii : ℕ, totalLossAt ctx ii
        = (weightsAt ctx.args ii).1 * contentLossAt ctx ii
          + (weightsAt ctx.args ii).2.1 * styleLossAt ctx ii
          + (weightsAt ctx.args ii).2.2 * tvLossAt ctx ii)
    ∧ ((stylize ctx).1.filter Event.isLossComp
        = (List.range' 1 ctx.args.steps).map
            (fun ii => Event.lossComputation (contentLossAt ctx ii)
              (styleLossAt ctx ii) (tvLossAt ctx ii) (totalLossAt ctx ii))) := by
  refine ⟨fun ii => rfl, ?_⟩
  rw [stylize_of_valid ctx hi]
  rcases ho with h | h <;>
    simp [h, loopAux_trace, List.filter_append, filter_flatMap_lossComp,
      List.filter, Event.isLossComp]

/-- Witness for C5 at the concrete blank-initialized run `cexCtx`. -/
theorem total_loss_weighted_sum_witness :
    (∀ ii : ℕ, totalLossAt cexCtx ii
        = (weightsAt cexCtx.args ii).1 * contentLossAt cexCtx ii
          + (weightsAt cexCtx.args ii).2.1 * styleLossAt cexCtx ii
          + (weightsAt cexCtx.args ii).2.2 * tvLossAt cexCtx ii)
    ∧ ((stylize cexCtx).1.filter Event.isLossComp
        = (List.range' 1 cexCtx.args.steps).map
            (fun ii => Event.lossComputation (contentLossAt cexCtx ii)
              (styleLossAt cexCtx ii) (tvLossAt cexCtx ii) (totalLossAt cexCtx ii))) :=
  total_loss_weighted_sum cexCtx (Or.inr (Or.inl rfl)) (Or.inl rfl)

/-- C6: the pretrained network is frozen and never trained: every parameter
has its autograd flag disabled by the freezing loop, the optimizer's
parameter list holds only the target tensor, and after any number of
iterations the network component of the loop state equals the loaded one. -/
theorem network_frozen_and_untrained (ps : List VggParam) (ctx : Ctx) (k : ℕ) :
    (∀ p ∈ freezeParams ps, p.requiresGrad = false)
    ∧ (mkStylizeOptimizer ctx.args).params = [PRef.target]
    ∧ (loopAux ctx k).1.2 = ctx.model := by
  refine ⟨?_, rfl, (loopAux_state ctx k).2⟩
  intro p hp
  simp only [freezeParams, List.mem_map] at hp
  obtain ⟨q, _, rfl⟩ := hp
  rfl

/-- Witness for C6 at a one-parameter network and the concrete run `cexCtx`. -/
theorem network_frozen_and_untrained_witness :
    ({ value := fun _ => 1, requiresGrad := false } : VggParam).requiresGrad = false
    ∧ (mkStylizeOptimizer cexCtx.args).params = [PRef.target]
    ∧ (loopAux cexCtx 2).1.2 = cexCtx.model :=
  ⟨(network_frozen_and_untrained [⟨fun _ => 1, true⟩] cexCtx 2).1
      { value := fun _ => 1, requiresGrad := false }
      (by simp [freezeParams]),
   (network_frozen_and_untrained [⟨fun _ => 1, true⟩] cexCtx 2).2.1,
   (network_frozen_and_untrained [⟨fun _ => 1, true⟩] cexCtx 2).2.2⟩

/-- C7: with a valid initialization method and output format, the loop of
`stylize` runs exactly `steps` iterations and terminates, each iteration
emitting exactly one forward pass, one loss computation and one optimizer
step, and the image export happens exactly once, after the loop. -/
theorem stylize_loop_structure (ctx : Ctx) (_hs : 1 ≤ ctx.args.steps)
    (hi : ctx.args.target_init = "clone" ∨ ctx.args.target_init = "blank"
      ∨ ctx.args.target_init = "random")
    (ho : ctx.args.out_format = "image-only" ∨ ctx.args.out_format = "comparison") :
    (stylize ctx).1
        = ((List.range' 1 ctx.args.steps).flatMap (iterEvents ctx))
            ++ [Event.exportImage]
    ∧ (stylize ctx).1.countP Event.isForward = ctx.args.steps
    ∧ (stylize ctx).1.countP Event.isLossComp = ctx.args.steps
    ∧ (stylize ctx).1.countP Event.isOptStep = ctx.args.steps
    ∧ (stylize ctx).1.countP Event.isExport = 1
    ∧ (stylize ctx).1.getLast? = some Event.exportImage := by
  have htr : (stylize ctx).1
      = ((List.range' 1 ctx.args.steps).flatMap (iterEvents ctx))
          ++ [Event.exportImage] := by
    rw [stylize_of_valid ctx hi]
    rcases ho with h | h <;> simp [h, loopAux_trace]
  have hlen : (List.range' 1 ctx.args.steps).length = ctx.args.steps := by simp
  have hcount : ∀ p : Event → Bool, (∀ ii, (iterEvents ctx ii).countP p = 1) →
      (stylize ctx).1.countP p = ctx.args.steps + [Event.exportImage].countP p := by
    intro p hp
    rw [htr, List.countP_append,
      countP_flatMap_const (List.range' 1 ctx.args.steps) (iterEvents ctx) p 1
        (fun x _ => hp x), hlen, one_mul]
  refine ⟨htr, ?_, ?_, ?_, ?_, ?_⟩
  · have := hcount Event.isForward (fun ii => (iterEvents_counts ctx ii).1)
    simpa [List.countP_cons, Event.isForward] using this
  · have := hcount Event.isLossComp (fun ii => (iterEvents_counts ctx ii).2.1)
    simpa [List.countP_cons, Event.isLossComp] using this
  · have := hcount Event.isOptStep (fun ii => (iterEvents_counts ctx ii).2.2.1)
    simpa [List.countP_cons, Event.isOptStep] using this
  · rw [htr, List.countP_append,
      countP_flatMap_const (List.range' 1 ctx.args.steps) (iterEvents ctx)
        Event.isExport 0 (fun x _ => (iterEvents_counts ctx x).2.2.2)]
    simp [List.countP_cons, Event.isExport]
  · rw [htr]
    exact List.getLast?_concat _

/-- Witness for C7 at the concrete one-step run `cexCtx`. -/
theorem stylize_loop_structure_witness :
    (stylize cexCtx).1
        = ((List.range' 1 cexCtx.args.steps).flatMap (iterEvents cexCtx))
            ++ [Event.exportImage]
    ∧ (stylize cexCtx).1.countP Event.isForward = cexCtx.args.steps
    ∧ (stylize cexCtx).1.countP Event.isLossComp = cexCtx.args.steps
    ∧ (stylize cexCtx).1.countP Event.isOptStep = cexCtx.args.steps
    ∧ (stylize cexCtx).1.countP Event.isExport = 1
    ∧ (stylize cexCtx).1.getLast? = some Event.exportImage :=
  stylize_loop_structure cexCtx (by decide) (Or.inr (Or.inl rfl)) (Or.inl rfl)

/-- C8: the target tensor is an exact copy of the content tensor for clone
initialization, a same-shaped tensor of 0.5 entries for blank, a same-shaped
tensor drawn from the randomness source for random, and any other method
raises `ValueError` before any optimization step runs. -/
theorem target_initialization (ctx : Ctx) :
    (ctx.args.target_init = "clone" →
        initTarget ctx.args ctx.content ctx.rng = .ok ctx.content)
    ∧ (ctx.args.target_init = "blank" →
        initTarget ctx.args ctx.content ctx.rng
          = .ok { ctx.content with data := fun _ _ _ _ => 1 / 2 })
    ∧ (ctx.args.target_init = "random" →
        initTarget ctx.args ctx.content ctx.rng
          = .ok { ctx.content with data := ctx.rng })
    ∧ (ctx.args.target_init ≠ "clone" → ctx.args.target_init ≠ "blank" →
        ctx.args.target_init ≠ "random" →
        stylize ctx
            = ([], .error ("Unexpected Initialization Method"
                ++ ctx.args.target_init))
          ∧ Event.optimizerStep ∉ (stylize ctx).1) := by
  refine ⟨fun h => by simp [initTarget, h], fun h => by simp [initTarget, h],
    fun h => by simp [initTarget, h], fun h1 h2 h3 => ?_⟩
  have he : initTarget ctx.args ctx.content ctx.rng
      = .error ("Unexpected Initialization Method" ++ ctx.args.target_init) := by
    simp [initTarget, h1, h2, h3]
  have hst : stylize ctx
      = ([], .error ("Unexpected Initialization Method" ++ ctx.args.target_init)) := by
    unfold stylize
    rw [he]
  exact ⟨hst, by rw [hst]; simp⟩

/-- The concrete run with clone initialization. -/
def cloneCtx : Ctx := { cexCtx with args := { cexArgs with target_init := "clone" } }

/-- The concrete run with random initialization. -/
def randomCtx : Ctx := { cexCtx with args := { cexArgs with target_init := "random" } }

/-- The concrete run with a misspelled initialization method. -/
def badInitCtx : Ctx := { cexCtx with args := { cexArgs with target_init := "mirror" } }

/-- Witness for C8 at four concrete initialization methods. -/
theorem target_initialization_witness :
    initTarget cloneCtx.args cloneCtx.content cloneCtx.rng = .ok cloneCtx.content
    ∧ initTarget cexCtx.args cexCtx.content cexCtx.rng
        = .ok { cexCtx.content with data := fun _ _ _ _ => 1 / 2 }
    ∧ initTarget randomCtx.args randomCtx.content randomCtx.rng
        = .ok { randomCtx.content with data := randomCtx.rng }
    ∧ (stylize badInitCtx
          = ([], .error ("Unexpected Initialization Method"
              ++ badInitCtx.args.target_init))
        ∧ Event.optimizerStep ∉ (stylize badInitCtx).1) :=
  ⟨(target_initialization cloneCtx).1 rfl,
   (target_initialization cexCtx).2.1 rfl,
   (target_initialization randomCtx).2.2.1 rfl,
   (target_initialization badInitCtx).2.2.2 (by decide) (by decide) (by decide)⟩

/-- The same call with the three loss-weight arguments replaced. -/
def setWeights (ctx : Ctx) (cw sw tw : ℚ) : Ctx :=
  { ctx with args :=
      { ctx.args with content_weight := cw, style_weight := sw, tv_weight := tw } }

/-- Replacing the weight arguments does not change the per-iteration weights
of a blank or random run: the schedule overrides them. -/
lemma weightsAt_setWeights (ctx : Ctx) (cw sw tw : ℚ) (ii : ℕ)
    (h : ctx.args.target_init = "blank" ∨ ctx.args.target_init = "random") :
    weightsAt (setWeights ctx cw sw tw).args ii = weightsAt ctx.args ii := by
  rcases h with h | h <;> simp [weightsAt, setWeights, h]

/-- Replacing the weight arguments changes no loss value. -/
lemma lossesOf_setWeights (ctx : Ctx) (cw sw tw : ℚ) (model : Model) (t : Tensor4) :
    lossesOf (setWeights ctx cw sw tw) model t = lossesOf ctx model t := rfl

/-- Replacing the weight arguments does not change the target sequence of a
blank or random run. -/
lemma targetAt_setWeights (ctx : Ctx) (cw sw tw : ℚ)
    (h : ctx.args.target_init = "blank" ∨ ctx.args.target_init = "random") (k : ℕ) :
    targetAt (setWeights ctx cw sw tw) k = targetAt ctx k := by
  induction k with
  | zero => rfl
  | succ n ih =>
    show (setWeights ctx cw sw tw).upd (n + 1) _ _ = ctx.upd (n + 1) _ _
    rw [ih, lossesOf_setWeights]
    have hw := weightsAt_setWeights ctx cw sw tw (n + 1) h
    show ctx.upd (n + 1)
        (totalOf (setWeights ctx cw sw tw).args (n + 1)
          (lossesOf ctx ctx.model (targetAt ctx n))) (targetAt ctx n) = _
    rw [show totalOf (setWeights ctx cw sw tw).args (n + 1)
          (lossesOf ctx ctx.model (targetAt ctx n))
        = totalOf ctx.args (n + 1) (lossesOf ctx ctx.model (targetAt ctx n)) by
      simp [totalOf, hw]]

/-- Replacing the weight arguments does not change the loop of a blank or
random run. -/
lemma loopAux_setWeights (ctx : Ctx) (cw sw tw : ℚ)
    (h : ctx.args.target_init = "blank" ∨ ctx.args.target_init = "random") (k : ℕ) :
    loopAux (setWeights ctx cw sw tw) k = loopAux ctx k := by
  have hiter : ∀ ii, iterEvents (setWeights ctx cw sw tw) ii = iterEvents ctx ii := by
    intro ii
    have hm : (setWeights ctx cw sw tw).model = ctx.model := rfl
    have ht := targetAt_setWeights ctx cw sw tw h (ii - 1)
    have hw := weightsAt_setWeights ctx cw sw tw ii h
    simp only [iterEvents, contentLossAt, styleLossAt, tvLossAt, totalLossAt,
      hm, ht, lossesOf_setWeights, totalOf, hw]
  have e1 : (loopAux (setWeights ctx cw sw tw) k).1.1 = (loopAux ctx k).1.1 := by
    rw [(loopAux_state (setWeights ctx cw sw tw) k).1, (loopAux_state ctx k).1,
      targetAt_setWeights ctx cw sw tw h]
  have e2 : (loopAux (setWeights ctx cw sw tw) k).1.2 = (loopAux ctx k).1.2 := by
    rw [(loopAux_state (setWeights ctx cw sw tw) k).2, (loopAux_state ctx k).2]
    rfl
  have e3 : (loopAux (setWeights ctx cw sw tw) k).2 = (loopAux ctx k).2 := by
    rw [loopAux_trace, loopAux_trace, funext hiter]
  exact Prod.ext (Prod.ext e1 e2) e3

/-- Replacing the weight arguments does not change a blank or random run of
`stylize` at all: its trace and its result are identical. -/
lemma stylize_setWeights (ctx : Ctx) (cw sw tw : ℚ)
    (h : ctx.args.target_init = "blank" ∨ ctx.args.target_init = "random") :
    stylize (setWeights ctx cw sw tw) = stylize ctx := by
  have hl : initTarget (setWeights ctx cw sw tw).args (setWeights ctx cw sw tw).content
      (setWeights ctx cw sw tw).rng = initTarget ctx.args ctx.content ctx.rng := rfl
  unfold stylize
  rw [hl]
  cases hInit : initTarget ctx.args ctx.content ctx.rng with
  | error e => rfl
  | ok t =>
    have hsteps : (setWeights ctx cw sw tw).args.steps = ctx.args.steps := rfl
    have hout : (setWeights ctx cw sw tw).args.out_format = ctx.args.out_format := rfl
    simp only [hsteps, hout, loopAux_setWeights ctx cw sw tw h]

/-- C9: for blank or random initialization the caller's three weight
arguments are ignored (the whole run is unchanged when they are replaced)
and the weights used in iteration ii are 1, 0.01, 2 in the first fifth of
the iterations and 10, 100, 20 afterwards; for clone initialization every
iteration uses the caller's weights unchanged. -/
theorem weight_schedule_override (ctx : Ctx) :
    ((ctx.args.target_init = "blank" ∨ ctx.args.target_init = "random") →
      (∀ cw sw tw : ℚ, stylize (setWeights ctx cw sw tw) = stylize ctx)
      ∧ (∀ ii : ℕ,
          ((ii : ℚ) ≤ (ctx.args.steps : ℚ) * (2 / 10) →
            weightsAt ctx.args ii = (1, 1 / 100, 2))
          ∧ (¬ (ii : ℚ) ≤ (ctx.args.steps : ℚ) * (2 / 10) →
            weightsAt ctx.args ii = (10, 100, 20))))
    ∧ (ctx.args.target_init = "clone" →
        ∀ ii : ℕ, weightsAt ctx.args ii
          = (ctx.args.content_weight, ctx.args.style_weight, ctx.args.tv_weight)) := by
  constructor
  · intro h
    refine ⟨fun cw sw tw => stylize_setWeights ctx cw sw tw h, fun ii => ⟨?_, ?_⟩⟩ <;>
      · intro hc
        rcases h with h | h <;> simp [weightsAt, h, hc]
  · intro h ii
    simp [weightsAt, h]

/-- Witness for C9 at the blank run `cexCtx` and the clone run `cloneCtx`. -/
theorem weight_schedule_override_witness :
    stylize (setWeights cexCtx 1 2 3) = stylize cexCtx
    ∧ weightsAt cexCtx.args 0 = (1, 1 / 100, 2)
    ∧ weightsAt cexCtx.args 7 = (10, 100, 20)
    ∧ weightsAt cloneCtx.args 1
        = (cloneCtx.args.content_weight, cloneCtx.args.style_weight,
            cloneCtx.args.tv_weight) :=
  ⟨((weight_schedule_override cexCtx).1 (Or.inl rfl)).1 1 2 3,
   ((((weight_schedule_override cexCtx).1 (Or.inl rfl)).2 0)).1 (by norm_num [cexCtx, cexArgs]),
   ((((weight_schedule_override cexCtx).1 (Or.inl rfl)).2 7)).2 (by norm_num [cexCtx, cexArgs]),
   (weight_schedule_override cloneCtx).2 rfl 1⟩

/-- C10: with a valid initialization method but an unknown output format,
`stylize` raises `ValueError` only after the whole optimization has run: the
trace still contains all `steps` iterations (and their optimizer steps), no
export happens, and the result is the `ValueError`. -/
theorem invalid_out_format_after_loop (ctx : Ctx)
    (hi : ctx.args.target_init = "clone" ∨ ctx.args.target_init = "blank"
      ∨ ctx.args.target_init = "random")
    (h1 : ctx.args.out_format ≠ "image-only")
    (h2 : ctx.args.out_format ≠ "comparison") :
    (stylize ctx).2
        = .error ("Unexpected Output Format" ++ ctx.args.out_format)
    ∧ (stylize ctx).1 = (List.range' 1 ctx.args.steps).flatMap (iterEvents ctx)
    ∧ (stylize ctx).1.countP Event.isOptStep = ctx.args.steps
    ∧ Event.exportImage ∉ (stylize ctx).1 := by
  have hst : stylize ctx
      = ((loopAux ctx ctx.args.steps).2,
         .error ("Unexpected Output Format" ++ ctx.args.out_format)) := by
    rw [stylize_of_valid ctx hi]
    simp [h1, h2]
  have htr : (stylize ctx).1 = (List.range' 1 ctx.args.steps).flatMap (iterEvents ctx) := by
    rw [hst]
    exact loopAux_trace ctx ctx.args.steps
  refine ⟨by rw [hst], htr, ?_, ?_⟩
  · rw [htr, countP_flatMap_const (List.range' 1 ctx.args.steps) (iterEvents ctx)
      Event.isOptStep 1 (fun x _ => (iterEvents_counts ctx x).2.2.1)]
    simp
  · intro hm
    rw [htr] at hm
    have h0 : ((List.range' 1 ctx.args.steps).flatMap (iterEvents ctx)).countP
        Event.isExport = 0 := by
      rw [countP_flatMap_const (List.range' 1 ctx.args.steps) (iterEvents ctx)
        Event.isExport 0 (fun x _ => (iterEvents_counts ctx x).2.2.2)]
      simp
    have := (List.countP_eq_zero.mp h0) Event.exportImage hm
    simp [Event.isExport] at this

/-- The concrete run with an unknown output format. -/
def badFmtCtx : Ctx := { cexCtx with args := { cexArgs with out_format := "pdf" } }

/-- Witness for C10 at the concrete run `badFmtCtx`. -/
theorem invalid_out_format_after_loop_witness :
    (stylize badFmtCtx).2
        = .error ("Unexpected Output Format" ++ badFmtCtx.args.out_format)
    ∧ (stylize badFmtCtx).1
        = (List.range' 1 badFmtCtx.args.steps).flatMap (iterEvents badFmtCtx)
    ∧ (stylize badFmtCtx).1.countP Event.isOptStep = badFmtCtx.args.steps
    ∧ Event.exportImage ∉ (stylize badFmtCtx).1 :=
  invalid_out_format_after_loop badFmtCtx (Or.inr (Or.inl rfl))
    (by decide) (by decide)

end StyleTransfer
